import Mathlib

/-!
Shallow embedding of the normalization / merge / enrichment / statistics
pipeline of `src/utils/data_cleaner.py` (class `DataCleaner`), together with
proofs of the specification's claims about it.

A pandas `DataFrame` is modelled as a `Table`: an ordered list of column
names plus a list of rows, each row an association list from column name to
`Cell`.  A `Cell` is a scalar value as it can occur in a DataFrame cell:
Python `None`, float NaN, an integer, a float (modelled as a rational), a
string, or a boolean.  `None` and NaN are both "missing" (`pandas.isna`),
but are distinct values, exactly as in pandas (e.g. `astype(bool)` maps
`None` to `False` and NaN to `True`).
-/

inductive Cell where
  | null
  | nan
  | cint (n : Int)
  | cfloat (q : Rat)
  | cstr (s : String)
  | cbool (b : Bool)
  deriving DecidableEq, Repr

/-- `pandas.isna`: `None` and float NaN count as missing. -/
def Cell.isna : Cell → Bool
  | .null => true
  | .nan => true
  | _ => false

/-- A row of a DataFrame: column name ↦ cell. -/
abbrev Row : Type := List (String × Cell)

/-- Value of a row at a column; a column absent from the row reads as `None`
(this is the `row.get(col, default)` path of the source, where an absent
column yields the default). -/
def getCell (r : Row) (c : String) : Cell :=
  match List.lookup c r with
  | some v => v
  | none => .null

/-- A DataFrame: ordered column names and rows. -/
structure Table where
  cols : List String
  rows : List Row
  deriving DecidableEq, Repr

/-- `pd.DataFrame()`: the empty frame with no columns and no rows. -/
def Table.empty : Table := { cols := [], rows := [] }

/-- The list of cells of one column, top to bottom. -/
def colCells (t : Table) (c : String) : List Cell :=
  t.rows.map (fun r => getCell r c)

/-- Number of missing cells in a column (`df[col].isna().sum()`). -/
def countIsna (t : Table) (c : String) : Nat :=
  (colCells t c).countP (fun x => x.isna)

/-- The pandas dtype of a column, inferred from its cells the way pandas
stores them: all ints → `int64`; ints/floats/NaN (not all ints) →
`float64`; all bools → `bool`; anything else (strings, `None`, mixtures,
or an empty frame) → `object`. -/
inductive DType where
  | int64
  | float64
  | bool
  | object
  deriving DecidableEq, Repr

def Cell.isCInt : Cell → Bool
  | .cint _ => true
  | _ => false

def Cell.isNumericOrNan : Cell → Bool
  | .cint _ => true
  | .cfloat _ => true
  | .nan => true
  | _ => false

def Cell.isCBool : Cell → Bool
  | .cbool _ => true
  | _ => false

def dtypeOf (t : Table) (c : String) : DType :=
  if (colCells t c).isEmpty then .object
  else if (colCells t c).all (fun x => x.isCInt) then .int64
  else if (colCells t c).all (fun x => x.isNumericOrNan) then .float64
  else if (colCells t c).all (fun x => x.isCBool) then .bool
  else .object

def DType.name : DType → String
  | .int64 => "int64"
  | .float64 => "float64"
  | .bool => "bool"
  | .object => "object"

/-- Rebuild a row so it has exactly the given columns, in order; a column
the row lacks is filled with NaN (how `pd.concat` and the DataFrame
constructor fill absent columns). -/
def getCellNan (r : Row) (c : String) : Cell :=
  match List.lookup c r with
  | some v => v
  | none => .nan

def alignRow (cols : List String) (r : Row) : Row :=
  cols.map (fun c => (c, getCellNan r c))

/-- Apply a per-column cell transformation to every row, realigning rows to
the table's columns (pandas columns are always complete). -/
def applyColFn (f : String → Cell → Cell) (t : Table) : Table :=
  { cols := t.cols
    rows := t.rows.map (fun r => t.cols.map (fun c => (c, f c (getCell r c)))) }

/-- `df[c] = <value per row>`: overwrite the column if it exists, else
append it at the end (pandas column-assignment semantics). -/
def rowSetCell (r : Row) (c : String) (v : Cell) : Row :=
  if r.any (fun p => p.1 = c) then
    r.map (fun p => if p.1 = c then (c, v) else p)
  else
    r ++ [(c, v)]

def setColumn (c : String) (f : Row → Cell) (t : Table) : Table :=
  { cols := if c ∈ t.cols then t.cols else t.cols ++ [c]
    rows := t.rows.map (fun r => rowSetCell r c (f r)) }

def setColumnConst (c : String) (v : Cell) (t : Table) : Table :=
  setColumn c (fun _ => v) t

/-- `df.drop(c, axis=1)`. -/
def dropColumn (c : String) (t : Table) : Table :=
  { cols := t.cols.erase c
    rows := t.rows.map (fun r => r.filter (fun p => p.1 ≠ c)) }

/-- `df.columns = df.columns.map(f)` (used for lower-casing / underscoring). -/
def renameCols (f : String → String) (t : Table) : Table :=
  { cols := t.cols.map f
    rows := t.rows.map (fun r => r.map (fun p => (f p.1, p.2))) }

/-- First-occurrence deduplication keyed by `key`, with an accumulator of
already-seen keys: the semantics of `df.drop_duplicates(keep='first')`. -/
def dedupAux {α K : Type} [DecidableEq K] (key : α → K) :
    List K → List α → List α
  | _, [] => []
  | seen, r :: rs =>
      if key r ∈ seen then dedupAux key seen rs
      else r :: dedupAux key (key r :: seen) rs

def dedupKeyFirst {α K : Type} [DecidableEq K] (key : α → K) (rs : List α) :
    List α :=
  dedupAux key [] rs

instance {ε α : Type} [DecidableEq ε] [DecidableEq α] :
    DecidableEq (Except ε α) := fun a b =>
  match a, b with
  | .ok x, .ok y => decidable_of_iff (x = y) (by simp)
  | .error e, .error f => decidable_of_iff (e = f) (by simp)
  | .ok _, .error _ => isFalse (by simp)
  | .error _, .ok _ => isFalse (by simp)

/-- The tuple of cell values a `drop_duplicates(subset=keys)` call compares
rows by. -/
def subsetKey (keys : List String) (r : Row) : List Cell :=
  keys.map (fun k => getCell r k)

/-- `drop_duplicates(subset=keys, keep='first')`: raises `KeyError` when a
subset label is not a column of the frame (this is how the empty merge
fails), otherwise keeps the first row for every key tuple. -/
def dropDuplicatesSubset (keys : List String) (t : Table) :
    Except String Table :=
  if keys.all (fun k => k ∈ t.cols) then
    .ok { cols := t.cols
          rows := dedupKeyFirst (subsetKey keys) t.rows }
  else
    .error "KeyError"

/-- Column-name normalization of the source:
`df.columns.str.lower().str.replace(' ', '_')` — lower-casing every
character and then replacing spaces is the same as doing both per
character, since a space lower-cases to itself. -/
def normName (s : String) : String :=
  String.mk (s.data.map (fun ch => if ch = ' ' then '_' else ch.toLower))

/-- `pd.DataFrame(records)` — first pass: columns are the union of the
records' keys in order of first appearance; a key absent from a record
reads as NaN. -/
def rawFrame (records : List Row) : Table :=
  let cols := (dedupAux (fun p => p.1) [] (records.flatMap id)).map (fun p => p.1)
  { cols := cols
    rows := records.map (fun r => cols.map (fun c => (c, getCellNan r c))) }

/-- A column whose cells are all numbers / NaN / `None`, with at least one
that is not `None`: pandas stores it as a numeric (float) column and turns
the `None`s into NaN during construction. -/
def numCoercibleCol (t : Table) (c : String) : Bool :=
  let cs := colCells t c
  cs.all (fun x => x.isNumericOrNan || x = .null) && cs.any (fun x => x.isNumericOrNan)

/-- `pd.DataFrame(records)` including the constructor's `None` → NaN
conversion inside numeric columns. -/
def toDataFrame (records : List Row) : Table :=
  let t0 := rawFrame records
  applyColFn (fun c x => if numCoercibleCol t0 c && x = .null then .nan else x) t0

/-- Insertion of a rational into a sorted list (ascending). -/
def insertRat (x : Rat) : List Rat → List Rat
  | [] => [x]
  | y :: ys => if x ≤ y then x :: y :: ys else y :: insertRat x ys

def sortRats : List Rat → List Rat
  | [] => []
  | x :: xs => insertRat x (sortRats xs)

/-- Numeric value of a cell, if it has one. -/
def Cell.toRat : Cell → Option Rat
  | .cint n => some (n : Rat)
  | .cfloat q => some q
  | _ => none

/-- The non-missing numeric values of a column, in row order. -/
def colNums (t : Table) (c : String) : List Rat :=
  (colCells t c).filterMap Cell.toRat

/-- `df[col].median()`: median of the non-missing values with linear
interpolation for an even count; NaN (here `none`) when there are none. -/
def colMedian (t : Table) (c : String) : Option Rat :=
  let vs := sortRats (colNums t c)
  let n := vs.length
  if n = 0 then none
  else if n % 2 = 1 then vs.get? (n / 2)
  else match vs.get? (n / 2 - 1), vs.get? (n / 2) with
    | some a, some b => some ((a + b) / 2)
    | _, _ => none

/-- The numeric columns the missing-value policy fills with `0`
(`data_cleaner.py` line 162). -/
def specialNumericCols : List String := ["price", "rating", "stock"]

/-- The text columns the missing-value policy fills with `"Unknown"`
(`data_cleaner.py` line 172). -/
def unknownTextCols : List String := ["description", "title", "category", "brand"]

/-- `DataCleaner._handle_missing_values`, numeric pass: every numeric
(int64/float64) column with at least one missing cell is filled — with `0`
for price/rating/stock, with the column median otherwise
(`fillna(median)` of an all-missing column fills with NaN, i.e. leaves the
cells missing). -/
def numericFillFn (t : Table) (c : String) (x : Cell) : Cell :=
  if (dtypeOf t c = .int64 || dtypeOf t c = .float64) && 0 < countIsna t c then
    if x.isna then
      if c ∈ specialNumericCols then .cfloat 0
      else match colMedian t c with
        | some m => .cfloat m
        | none => .nan
    else x
  else x

/-- `DataCleaner._handle_missing_values`, string pass: every object-dtype
column with at least one missing cell is filled — `"Unknown"` for
description/title/category/brand, `""` otherwise. -/
def stringFillFn (t : Table) (c : String) (x : Cell) : Cell :=
  if dtypeOf t c = .object && 0 < countIsna t c then
    if x.isna then
      if c ∈ unknownTextCols then .cstr "Unknown" else .cstr ""
    else x
  else x

/-- `DataCleaner._handle_missing_values`, boolean pass: `fillna(False)` on
every bool-dtype column (a no-op in practice, since a pandas bool column
cannot hold a missing value). -/
def boolFillFn (t : Table) (c : String) (x : Cell) : Cell :=
  if dtypeOf t c = .bool then
    if x.isna then .cbool false else x
  else x

def fillNumericPass (t : Table) : Table := applyColFn (numericFillFn t) t

def fillStringPass (t : Table) : Table := applyColFn (stringFillFn t) t

def fillBoolPass (t : Table) : Table := applyColFn (boolFillFn t) t

/-- `DataCleaner._handle_missing_values` (lines 148–182): the three passes
in source order; each pass classifies columns by the dtypes of its own
input, as the source does by calling `select_dtypes` between the loops. -/
def handleMissingValues (t : Table) : Table :=
  fillBoolPass (fillStringPass (fillNumericPass t))

/-- Numeric value of a digit string. -/
def digitsVal (cs : List Char) : Nat :=
  cs.foldl (fun n ch => n * 10 + (ch.toNat - 48)) 0

/-- Parse an unsigned decimal literal (digits with an optional fractional
part; `"5."` and `".5"` are accepted, as Python's `float` accepts them). -/
def parseDecimalCore (cs : List Char) : Option Rat :=
  let intPart := cs.takeWhile (fun ch => ch ≠ '.')
  match cs.drop intPart.length with
  | [] =>
    if cs ≠ [] ∧ cs.all Char.isDigit then some (digitsVal cs : Rat) else none
  | _ :: frac =>
    if (intPart ≠ [] ∨ frac ≠ []) ∧ intPart.all Char.isDigit
        ∧ frac.all Char.isDigit then
      some ((digitsVal intPart : Rat) +
        (digitsVal frac : Rat) / ((10 : Rat) ^ frac.length))
    else none

/-- Parse a decimal literal with an optional sign, as `pd.to_numeric` does
for strings; other strings fail.  (pandas additionally accepts exponent
forms such as `"1e5"` and surrounding whitespace; no theorem below
depends on a string of those shapes.) -/
def parseDecimal (s : String) : Option Rat :=
  match s.data with
  | '-' :: rest => (parseDecimalCore rest).map (fun q => -q)
  | '+' :: rest => parseDecimalCore rest
  | cs => parseDecimalCore cs

/-- `pd.to_numeric(x, errors='coerce')` on one cell: numbers pass through,
booleans become 0/1, parseable strings become numbers, everything else
(including missing values) becomes NaN. -/
def toNumericCell (x : Cell) : Cell :=
  match x with
  | .cint n => .cint n
  | .cfloat q => .cfloat q
  | .cbool b => .cint (if b then 1 else 0)
  | .cstr s =>
    match parseDecimal s with
    | some q => .cfloat q
    | none => .nan
  | .null => .nan
  | .nan => .nan

/-- `.astype('Int64')` after `to_numeric`: NaN becomes the nullable-integer
`<NA>` (modelled `.null`), integral floats become integers.  (pandas raises
on a non-integral float; the ids of this pipeline are always integral, and
the model leaves such a cell unchanged.) -/
def astypeInt64 (x : Cell) : Cell :=
  match x with
  | .nan => .null
  | .null => .null
  | .cint n => .cint n
  | .cfloat q => if q.den = 1 then .cint q.num else .cfloat q
  | y => y

/-- `.astype(bool)` on one cell: Python truthiness, elementwise.  Note that
NaN is truthy (`bool(float('nan')) == True`) while `None` is falsy. -/
def astypeBool (x : Cell) : Cell :=
  match x with
  | .cbool b => .cbool b
  | .cint n => .cbool (n ≠ 0)
  | .cfloat q => .cbool (q ≠ 0)
  | .cstr s => .cbool (s ≠ "")
  | .nan => .cbool true
  | .null => .cbool false

/-- The boolean-like columns coerced by `_validate_data_types`
(`data_cleaner.py` line 211). -/
def boolCandidates : List String := ["in_stock", "onsale", "returnable"]

/-- `DataCleaner._validate_data_types` (lines 184–216): coerce
price/rating/stock to numeric, id to nullable integer, and the designated
boolean-like columns to bool.  Each coercion touches a distinct fixed
column name, so the sequence of column assignments is one per-column map. -/
def validateFn (c : String) (x : Cell) : Cell :=
  if c = "price" || c = "rating" || c = "stock" then toNumericCell x
  else if c = "id" then astypeInt64 (toNumericCell x)
  else if c ∈ boolCandidates then astypeBool x
  else x

def validateDataTypes (t : Table) : Table :=
  applyColFn validateFn t

/-- `DataCleaner.clean_api_data` (lines 21–94) for flat raw records.  The
branches flattening nested substructures (`dimensions`, `reviews`,
`images`, lines 41–67) operate on cells holding dicts/lists, which the
scalar `Cell` type of this embedding cannot represent; a frame containing
one of those columns is therefore outside the modelled domain and is
reported as such (none of the claims below exercises them — the `meta`
column, which the source merely drops, is modelled).  `scraped_at` is
`datetime.now()`, passed in as the `now` argument. -/
def apiPreDedup (now : String) (records : List Row) : Table :=
  let df := toDataFrame records
  let df := if "meta" ∈ df.cols then dropColumn "meta" df else df
  let df := renameCols normName df
  let df := setColumnConst "data_source" (.cstr "DummyJSON_API") df
  setColumnConst "scraped_at" (.cstr now) df

def cleanApiData (now : String) (records : List Row) : Except String Table :=
  if records.isEmpty then .ok Table.empty
  else if "dimensions" ∈ (toDataFrame records).cols
      || "reviews" ∈ (toDataFrame records).cols
      || "images" ∈ (toDataFrame records).cols then
    .error "nested structures outside modelled domain"
  else
    match dropDuplicatesSubset ["id"] (apiPreDedup now records) with
    | .error e => .error e
    | .ok df => .ok (validateDataTypes (handleMissingValues df))

/-- String rendering used inside the id-synthesis f-string
`f"{row.get('title', '')}_{row.get('product_url', '')}"`.  A string cell
renders as itself; an absent column renders as the `.get` default `""`;
NaN renders as `"nan"`, a boolean as `"True"`/`"False"`, an integer via
`str`.  (A float cell would render via Python float `repr`, approximated
here; the scraper always supplies strings for `title`/`product_url`.) -/
def cellToPyStr (x : Cell) : String :=
  match x with
  | .cstr s => s
  | .null => ""
  | .nan => "nan"
  | .cbool b => if b then "True" else "False"
  | .cint n => toString n
  | .cfloat q => if q.den = 1 then toString q.num ++ ".0" else toString q

/-- The per-row id synthesis of `clean_web_scraped_data` (lines 119–122):
`hash(f"{title}_{url}") % 1000000`.  `pyHash` is the process's Python
string hash.  Since Python 3.3 that hash is salted per interpreter process
by `PYTHONHASHSEED` (hash randomization), so it is an input to the model,
not a constant function.  Python's `%` on a positive modulus is
floor-division remainder, i.e. `Int.emod` into `[0, 1000000)`. -/
def synthesizeId (pyHash : String → Int) (r : Row) : Cell :=
  .cint (Int.emod (pyHash (cellToPyStr (getCell r "title") ++ "_" ++
    cellToPyStr (getCell r "product_url"))) 1000000)

/-- `DataCleaner.clean_web_scraped_data` (lines 96–146), everything up to
the duplicate removal of line 132. -/
def webPreDedup (pyHash : String → Int) (now : String)
    (records : List Row) : Table :=
  let df := toDataFrame records
  let df := renameCols normName df
  let df := setColumn "id" (synthesizeId pyHash) df
  let df := setColumnConst "data_source" (.cstr "BooksToScrape_Web") df
  setColumnConst "scraped_at" (.cstr now) df

/-- `DataCleaner.clean_web_scraped_data` (lines 96–146). -/
def cleanWebScrapedData (pyHash : String → Int) (now : String)
    (records : List Row) : Except String Table :=
  if records.isEmpty then .ok Table.empty
  else
    match dropDuplicatesSubset ["id"] (webPreDedup pyHash now records) with
    | .error e => .error e
    | .ok df => .ok (validateDataTypes (handleMissingValues df))

/-- `pd.concat([df_api, df_web], axis=0, ignore_index=True, sort=False)`:
columns are the union (first frame's columns first, then the second's new
ones in order), rows of the first frame precede rows of the second, and a
column absent from a row's frame is filled with NaN. -/
def concatTables (dfApi dfWeb : Table) : Table :=
  { cols := dfApi.cols ++ dfWeb.cols.filter (fun c => c ∉ dfApi.cols)
    rows :=
      dfApi.rows.map
        (alignRow (dfApi.cols ++ dfWeb.cols.filter (fun c => c ∉ dfApi.cols)))
      ++ dfWeb.rows.map
        (alignRow (dfApi.cols ++ dfWeb.cols.filter (fun c => c ∉ dfApi.cols))) }

/-- `DataCleaner.merge_datasets` (lines 218–250): concatenate, then
`drop_duplicates(subset=['id', 'data_source'], keep='first')`, which
raises `KeyError` when a key column is absent from the concatenation (as
happens for two empty frames).  The `common_columns` computation of the
source (line 232) only feeds a log message and has no effect on the
result. -/
def mergeDatasets (dfApi dfWeb : Table) : Except String Table :=
  dropDuplicatesSubset ["id", "data_source"] (concatTables dfApi dfWeb)

/-- `pd.cut(price, bins=[0, 20, 50, 100, inf], labels=[...])` on one cell:
pandas bins are right-closed, `(0,20] (20,50] (50,100] (100,inf]`; a value
outside every bin (in particular `price ≤ 0`) and a missing value get the
NaN category.  (`pd.cut` on a non-numeric column raises; the enricher only
ever sees the numeric `price` produced by `_validate_data_types`, and the
model gives such a cell the NaN category.) -/
def priceCut (x : Cell) : Cell :=
  match x.toRat with
  | some q =>
    if 0 < q ∧ q ≤ 20 then .cstr "Budget"
    else if 20 < q ∧ q ≤ 50 then .cstr "Mid-Range"
    else if 50 < q ∧ q ≤ 100 then .cstr "Premium"
    else if 100 < q then .cstr "Luxury"
    else .nan
  | none => .nan

/-- `pd.cut(rating, bins=[0, 2, 3, 4, 5], labels=[...])` on one cell:
right-closed bins `(0,2] (2,3] (3,4] (4,5]`; `rating ≤ 0` or `rating > 5`
or missing gets the NaN category. -/
def ratingCut (x : Cell) : Cell :=
  match x.toRat with
  | some q =>
    if 0 < q ∧ q ≤ 2 then .cstr "Poor"
    else if 2 < q ∧ q ≤ 3 then .cstr "Fair"
    else if 3 < q ∧ q ≤ 4 then .cstr "Good"
    else if 4 < q ∧ q ≤ 5 then .cstr "Excellent"
    else .nan
  | none => .nan

/-- `.str.len()` on one cell: length for a string, NaN otherwise. -/
def strLenCell (x : Cell) : Cell :=
  match x with
  | .cstr s => .cint s.length
  | _ => .nan

/-- Words of a Python `str.split()` with no separator: split on whitespace
runs, dropping empty pieces. -/
def pyWords (s : String) : List String :=
  (s.split Char.isWhitespace).filter (fun w => w ≠ "")

def strWordCountCell (x : Cell) : Cell :=
  match x with
  | .cstr s => .cint (pyWords s).length
  | _ => .nan

/-- `df['description'].str.len() > 0`: a pandas comparison, in which a
missing length compares as `False`. -/
def hasDescriptionCell (x : Cell) : Cell :=
  match x with
  | .cstr s => .cbool (s.length > 0)
  | _ => .cbool false

/-- `((regularprice - price) / regularprice * 100).round(2)` on one row;
division by a zero regular price gives a float infinity, which (like a
missing operand) is modelled as NaN — no claim depends on it.  `.round(2)`
is pandas round-half-even at two decimals. -/
def roundHalfEven (q : Rat) : Int :=
  let f := q.floor
  let frac := q - (f : Rat)
  if frac < 1/2 then f
  else if frac > 1/2 then f + 1
  else if f % 2 = 0 then f else f + 1

def discountCell (price reg : Cell) : Cell :=
  match price.toRat, reg.toRat with
  | some p, some r =>
    if r = 0 then .nan
    else .cfloat ((roundHalfEven ((r - p) / r * 100 * 100) : Rat) / 100)
  | _, _ => .nan

/-- `DataCleaner.add_calculated_fields` (lines 252–299): each derived
column is added only when its source column exists; assignments happen in
source order.  The stages are named one per source-column block. -/
def enrichPrice (t : Table) : Table :=
  if "price" ∈ t.cols then
    setColumn "price_category" (fun r => priceCut (getCell r "price")) t
  else t

def enrichRating (t : Table) : Table :=
  if "rating" ∈ t.cols then
    setColumn "rating_category" (fun r => ratingCut (getCell r "rating")) t
  else t

def enrichTitle (t : Table) : Table :=
  if "title" ∈ t.cols then
    setColumn "title_word_count" (fun r => strWordCountCell (getCell r "title"))
      (setColumn "title_length" (fun r => strLenCell (getCell r "title")) t)
  else t

def enrichDescription (t : Table) : Table :=
  if "description" ∈ t.cols then
    setColumn "has_description" (fun r => hasDescriptionCell (getCell r "description"))
      (setColumn "description_word_count"
        (fun r => strWordCountCell (getCell r "description"))
        (setColumn "description_length"
          (fun r => strLenCell (getCell r "description")) t))
  else t

def enrichDiscount (t : Table) : Table :=
  if "price" ∈ t.cols ∧ "regularprice" ∈ t.cols then
    setColumn "discount_percentage"
      (fun r => discountCell (getCell r "price") (getCell r "regularprice")) t
  else t

def addCalculatedFields (t : Table) : Table :=
  enrichDiscount (enrichDescription (enrichTitle (enrichRating (enrichPrice t))))

/-- `df[col].mean()` (skips missing values; NaN — here `none` — when no
value remains). -/
def colMean (t : Table) (c : String) : Option Rat :=
  let vs := colNums t c
  if vs.length = 0 then none else some (vs.sum / (vs.length : Rat))

def colMin (t : Table) (c : String) : Option Rat :=
  match sortRats (colNums t c) with
  | [] => none
  | v :: _ => some v

def colMax (t : Table) (c : String) : Option Rat :=
  match (sortRats (colNums t c)).getLast? with
  | none => none
  | some v => some v

/-- `df[col].std()` is the sample standard deviation (`ddof=1`), NaN for
fewer than two values.  A standard deviation is an irrational square root
in general, so the model carries the sample variance (its square); a
variance is `none` exactly when pandas' `std` is NaN, which is all any
claim observes about it. -/
def colVariance (t : Table) (c : String) : Option Rat :=
  let vs := colNums t c
  let n := vs.length
  if n ≤ 1 then none
  else
    let m := vs.sum / (n : Rat)
    some ((vs.map (fun v => (v - m) * (v - m))).sum / ((n : Rat) - 1))

/-- `value_counts().to_dict()`: multiplicity of each distinct non-missing
cell value.  `to_dict` produces a dictionary, so only the key ↦ count
mapping is meaningful; the model lists keys in first-appearance order. -/
def valueCounts (t : Table) (c : String) : List (Cell × Nat) :=
  let vs := (colCells t c).filter (fun x => !x.isna)
  (dedupKeyFirst (fun x => x) vs).map (fun v => (v, vs.count v))

/-- The `price_stats` / `rating_stats` block (`rating_stats` carries no
`std`, modelled by `std = none` there never being read). -/
structure AggStats where
  mean : Option Rat
  median : Option Rat
  min : Option Rat
  max : Option Rat
  deriving DecidableEq, Repr

structure PriceStats where
  agg : AggStats
  std : Option Rat
  deriving DecidableEq, Repr

structure StockStats where
  in_stock : Nat
  out_of_stock : Nat
  in_stock_percentage : Option Rat
  deriving DecidableEq, Repr

structure Stats where
  total_products : Nat
  total_columns : Nat
  missing_values : List (String × Nat)
  data_types : List (String × String)
  price_stats : Option PriceStats
  rating_stats : Option AggStats
  category_distribution : Option (List (Cell × Nat))
  data_source_distribution : Option (List (Cell × Nat))
  stock_stats : Option StockStats
  deriving DecidableEq, Repr

def aggStatsOf (t : Table) (c : String) : AggStats :=
  { mean := colMean t c
    median := colMedian t c
    min := colMin t c
    max := colMax t c }

/-- `DataCleaner.generate_statistics` (lines 301–360).  Each aggregate
block is included exactly when its source column is present in the frame
— the `if col in df.columns` guards of the source; an all-missing column
still gets its block, with NaN aggregates.  The stock percentage is
`in_stock_bool.sum() / len(df) * 100`, a numpy float division whose `0/0`
is NaN (`none`), not an exception. -/
def generateStatistics (t : Table) : Stats :=
  { total_products := t.rows.length
    total_columns := t.cols.length
    missing_values := t.cols.map (fun c => (c, countIsna t c))
    data_types := t.cols.map (fun c => (c, (dtypeOf t c).name))
    price_stats :=
      if "price" ∈ t.cols then
        some { agg := aggStatsOf t "price", std := colVariance t "price" }
      else none
    rating_stats :=
      if "rating" ∈ t.cols then some (aggStatsOf t "rating") else none
    category_distribution :=
      if "category" ∈ t.cols then some (valueCounts t "category") else none
    data_source_distribution :=
      if "data_source" ∈ t.cols then some (valueCounts t "data_source") else none
    stock_stats :=
      if "in_stock" ∈ t.cols then
        let bools := (colCells t "in_stock").map
          (fun x => if x.isna then Cell.cbool false else astypeBool x)
        let inCount := bools.count (Cell.cbool true)
        some { in_stock := inCount
               out_of_stock := bools.length - inCount
               in_stock_percentage :=
                 if t.rows.length = 0 then none
                 else some ((inCount : Rat) / (t.rows.length : Rat) * 100) }
      else none }

/-- A table whose rows are exactly aligned to its columns — as every frame
pandas actually builds is. -/
def Table.wellFormed (t : Table) : Prop :=
  ∀ r ∈ t.rows, alignRow t.cols r = r

/-- A table with no duplicate `(id, data_source)` key, the invariant the
spec asserts of normalized/merged tables. -/
def Table.mergeKeyNodup (t : Table) : Prop :=
  (t.rows.map (subsetKey ["id", "data_source"])).Nodup

/-- The table inside a successful pipeline result (`Table.empty` for an
error); used to name concrete pipeline outputs in closed statements. -/
def okOr (e : Except String Table) : Table :=
  match e with
  | .ok t => t
  | .error _ => Table.empty

/-- Modelled from the spec: the price-bucket convention as claim C9 words
it — "lower-bound-inclusive" boundaries at 20, 50 and 100 with an
open-ended final bin (spec §9: "lower bound inclusive, upper bound
exclusive, final bin open-ended"), i.e. bins `[0,20) [20,50) [50,100)
[100,∞)`.  Stated only for comparison against the source's right-closed
`priceCut`. -/
def priceCategorySpecLower (q : Rat) : Option String :=
  if 0 ≤ q ∧ q < 20 then some "Budget"
  else if 20 ≤ q ∧ q < 50 then some "Mid-Range"
  else if 50 ≤ q ∧ q < 100 then some "Premium"
  else if 100 ≤ q then some "Luxury"
  else none

/-- Rows of `u` are rows of `t` with the cells of columns `a` and `b`
unchanged (used to carry a derived-column fact across the later
column additions of the enricher). -/
def preservesTwo (a b : String) (u t : Table) : Prop :=
  ∀ r2 ∈ u.rows, ∃ r1 ∈ t.rows,
    getCell r2 a = getCell r1 a ∧ getCell r2 b = getCell r1 b

/-- A normalized two-row table used to instantiate the merge theorems. -/
def wTableA : Table :=
  { cols := ["id", "data_source", "price"]
    rows := [[("id", Cell.cint 1), ("data_source", Cell.cstr "DummyJSON_API"),
              ("price", Cell.cfloat 5)],
             [("id", Cell.cint 2), ("data_source", Cell.cstr "DummyJSON_API"),
              ("price", Cell.cfloat 120)]] }

/-- A second normalized table, with a different column set. -/
def wTableB : Table :=
  { cols := ["id", "data_source", "stock"]
    rows := [[("id", Cell.cint 1), ("data_source", Cell.cstr "BooksToScrape_Web"),
              ("stock", Cell.cint 3)]] }

/-- Web-scraper records containing a duplicate `(title, product_url)` pair
(rows 0 and 1), used to instantiate the dedup theorem. -/
def wDupRecs : List Row :=
  [[("title", Cell.cstr "A"), ("product_url", Cell.cstr "u")],
   [("title", Cell.cstr "A"), ("product_url", Cell.cstr "u")],
   [("title", Cell.cstr "BB"), ("product_url", Cell.cstr "u")]]

/-- A stand-in for one process's salted Python string hash. -/
def wHashLen (s : String) : Int := (s.length : Int)


theorem lookup_map_cols (cols : List String) (g : String → Cell) (c : String)
    (h : c ∈ cols) :
    List.lookup c (cols.map (fun c2 => (c2, g c2))) = some (g c) := by
  induction cols with
  | nil => cases h
  | cons c0 cs ih =>
    by_cases hc : c = c0
    · subst hc
      simp [List.lookup]
    · have hm : c ∈ cs := by
        rcases List.mem_cons.mp h with h1 | h1
        · exact absurd h1 hc
        · exact h1
      have hb : (c == c0) = false := beq_eq_false_iff_ne.mpr hc
      simp [List.lookup, hb, ih hm]

theorem lookup_map_cols_none (cols : List String) (g : String → Cell)
    (c : String) (h : c ∉ cols) :
    List.lookup c (cols.map (fun c2 => (c2, g c2))) = none := by
  induction cols with
  | nil => rfl
  | cons c0 cs ih =>
    have hc : c ≠ c0 := fun he => h (he ▸ List.mem_cons_self c0 cs)
    have hm : c ∉ cs := fun hmem => h (List.mem_cons_of_mem _ hmem)
    have hb : (c == c0) = false := beq_eq_false_iff_ne.mpr hc
    simp [List.lookup, hb, ih hm]

theorem getCell_map_cols (cols : List String) (g : String → Cell) (c : String)
    (h : c ∈ cols) :
    getCell (cols.map (fun c2 => (c2, g c2))) c = g c := by
  unfold getCell
  rw [lookup_map_cols cols g c h]

theorem getCellNan_map_cols (cols : List String) (g : String → Cell) (c : String)
    (h : c ∈ cols) :
    getCellNan (cols.map (fun c2 => (c2, g c2))) c = g c := by
  unfold getCellNan
  rw [lookup_map_cols cols g c h]

theorem alignRow_idem (cols : List String) (r : Row) :
    alignRow cols (alignRow cols r) = alignRow cols r := by
  unfold alignRow
  apply List.map_congr_left
  intro c hc
  rw [getCellNan_map_cols cols _ c hc]

theorem cols_applyColFn (f : String → Cell → Cell) (t : Table) :
    (applyColFn f t).cols = t.cols := rfl

theorem colCells_applyColFn (f : String → Cell → Cell) (t : Table)
    (c : String) (h : c ∈ t.cols) :
    colCells (applyColFn f t) c = (colCells t c).map (f c) := by
  unfold colCells applyColFn
  simp only [List.map_map]
  apply List.map_congr_left
  intro r _
  exact getCell_map_cols t.cols (fun c2 => f c2 (getCell r c2)) c h

theorem lookup_replace_self (r : Row) (c : String) (v : Cell)
    (h : ∃ p ∈ r, p.1 = c) :
    List.lookup c (r.map (fun p => if p.1 = c then (c, v) else p)) = some v := by
  induction r with
  | nil => rcases h with ⟨p, hp, _⟩; cases hp
  | cons p0 rest ih =>
    obtain ⟨k0, v0⟩ := p0
    rw [List.map_cons]
    by_cases h0 : k0 = c
    · subst h0
      rw [show (if ((k0, v0) : String × Cell).1 = k0 then (k0, v) else (k0, v0))
            = (k0, v) from by simp]
      simp [List.lookup]
    · have hb : (c == k0) = false :=
        beq_eq_false_iff_ne.mpr (fun hcc => h0 hcc.symm)
      rw [show (if ((k0, v0) : String × Cell).1 = c then (c, v) else (k0, v0))
            = (k0, v0) from by simp [h0]]
      rcases h with ⟨p, hp, hpc⟩
      rcases List.mem_cons.mp hp with he | hm
      · rw [he] at hpc
        exact absurd hpc h0
      · simp only [List.lookup]
        rw [hb]
        exact ih ⟨p, hm, hpc⟩

theorem lookup_replace_ne (r : Row) (c c' : String) (v : Cell) (h : c' ≠ c) :
    List.lookup c' (r.map (fun p => if p.1 = c then (c, v) else p)) =
      List.lookup c' r := by
  induction r with
  | nil => rfl
  | cons p0 rest ih =>
    obtain ⟨k0, v0⟩ := p0
    rw [List.map_cons]
    by_cases h0 : k0 = c
    · have hb2 : (c' == c) = false := beq_eq_false_iff_ne.mpr h
      have hb : (c' == k0) = false :=
        beq_eq_false_iff_ne.mpr (fun hcc => h (hcc.trans h0))
      rw [show (if ((k0, v0) : String × Cell).1 = c then (c, v) else (k0, v0))
            = (c, v) from by simp [h0]]
      simp only [List.lookup]
      rw [hb, hb2]
      exact ih
    · rw [show (if ((k0, v0) : String × Cell).1 = c then (c, v) else (k0, v0))
            = (k0, v0) from by simp [h0]]
      simp only [List.lookup]
      cases hcb : (c' == k0) with
      | true => rfl
      | false => exact ih

theorem lookup_eq_none_of_keys_ne (r : Row) (c : String)
    (h : ∀ p ∈ r, p.1 ≠ c) : List.lookup c r = none := by
  induction r with
  | nil => rfl
  | cons p0 rest ih =>
    obtain ⟨k0, v0⟩ := p0
    have hk : k0 ≠ c := h (k0, v0) (List.mem_cons_self _ _)
    have hb : (c == k0) = false :=
      beq_eq_false_iff_ne.mpr (fun hcc => hk hcc.symm)
    simp only [List.lookup]
    rw [hb]
    exact ih (fun p hp => h p (List.mem_cons_of_mem _ hp))

theorem lookup_append_of_none (r s : Row) (c : String)
    (h : List.lookup c r = none) :
    List.lookup c (r ++ s) = List.lookup c s := by
  induction r with
  | nil => rfl
  | cons p0 rest ih =>
    obtain ⟨k0, v0⟩ := p0
    cases hcb : (c == k0) with
    | true =>
      exfalso
      simp only [List.lookup] at h
      rw [hcb] at h
      cases h
    | false =>
      simp only [List.lookup] at h ⊢
      rw [hcb] at h ⊢
      simp only [List.cons_append]  
      exact ih h

theorem lookup_append_of_some (r s : Row) (c : String) (v : Cell)
    (h : List.lookup c r = some v) :
    List.lookup c (r ++ s) = some v := by
  induction r with
  | nil => cases h
  | cons p0 rest ih =>
    obtain ⟨k0, v0⟩ := p0
    cases hcb : (c == k0) with
    | true =>
      simp only [List.lookup] at h ⊢
      rw [hcb] at h ⊢
      exact h
    | false =>
      simp only [List.lookup] at h ⊢
      rw [hcb] at h ⊢
      exact ih h

theorem lookup_rowSetCell_self (r : Row) (c : String) (v : Cell) :
    List.lookup c (rowSetCell r c v) = some v := by
  unfold rowSetCell
  by_cases ha : (r.any fun p => p.1 = c) = true
  · rw [if_pos ha]
    rcases List.any_eq_true.mp ha with ⟨p, hp, hpc⟩
    exact lookup_replace_self r c v ⟨p, hp, of_decide_eq_true hpc⟩
  · rw [if_neg ha]
    have hnone : List.lookup c r = none := by
      apply lookup_eq_none_of_keys_ne
      intro p hp hpc
      exact ha (List.any_eq_true.mpr ⟨p, hp, decide_eq_true hpc⟩)
    rw [lookup_append_of_none r _ c hnone]
    simp [List.lookup]

theorem lookup_rowSetCell_ne (r : Row) (c c' : String) (v : Cell)
    (h : c' ≠ c) :
    List.lookup c' (rowSetCell r c v) = List.lookup c' r := by
  unfold rowSetCell
  by_cases ha : (r.any fun p => p.1 = c) = true
  · rw [if_pos ha]
    exact lookup_replace_ne r c c' v h
  · rw [if_neg ha]
    cases hl : List.lookup c' r with
    | some w => exact lookup_append_of_some r _ c' w hl
    | none =>
      rw [lookup_append_of_none r _ c' hl]
      have hb : (c' == c) = false := beq_eq_false_iff_ne.mpr h
      simp [List.lookup, hb]

theorem getCell_rowSetCell_self (r : Row) (c : String) (v : Cell) :
    getCell (rowSetCell r c v) c = v := by
  unfold getCell
  rw [lookup_rowSetCell_self]

theorem getCell_rowSetCell_ne (r : Row) (c c' : String) (v : Cell)
    (h : c' ≠ c) : getCell (rowSetCell r c v) c' = getCell r c' := by
  unfold getCell
  rw [lookup_rowSetCell_ne r c c' v h]

theorem rows_setColumn (c : String) (f : Row → Cell) (t : Table) :
    (setColumn c f t).rows = t.rows.map (fun r => rowSetCell r c (f r)) := rfl

theorem mem_cols_setColumn (c c' : String) (f : Row → Cell) (t : Table)
    (h : c' ∈ t.cols) : c' ∈ (setColumn c f t).cols := by
  unfold setColumn
  by_cases hc : c ∈ t.cols <;> simp [hc, h]

theorem self_mem_cols_setColumn (c : String) (f : Row → Cell) (t : Table) :
    c ∈ (setColumn c f t).cols := by
  unfold setColumn
  by_cases hc : c ∈ t.cols <;> simp [hc]

theorem dedupAux_sublist {α K : Type} [DecidableEq K] (key : α → K)
    (xs : List α) : ∀ seen, (dedupAux key seen xs).Sublist xs := by
  induction xs with
  | nil => intro seen; simp [dedupAux]
  | cons x rest ih =>
    intro seen
    by_cases h : key x ∈ seen
    · rw [dedupAux, if_pos h]
      exact (ih seen).cons x
    · rw [dedupAux, if_neg h]
      exact (ih (key x :: seen)).cons₂ x

theorem dedupAux_eq_nil {α K : Type} [DecidableEq K] (key : α → K)
    (xs : List α) : ∀ seen, (∀ x ∈ xs, key x ∈ seen) →
    dedupAux key seen xs = [] := by
  induction xs with
  | nil => intro seen _; rfl
  | cons x rest ih =>
    intro seen h
    rw [dedupAux, if_pos (h x (List.mem_cons_self _ _))]
    exact ih seen (fun y hy => h y (List.mem_cons_of_mem _ hy))

theorem dedupAux_absorb {α K : Type} [DecidableEq K] (key : α → K)
    (xs : List α) : ∀ (e : List α) (seen : List K),
    (xs.map key).Nodup → (∀ x ∈ xs, key x ∉ seen) →
    (∀ z ∈ e, key z ∈ seen ∨ key z ∈ xs.map key) →
    dedupAux key seen (xs ++ e) = xs := by
  induction xs with
  | nil =>
    intro e seen _ _ he
    rw [List.nil_append]
    exact dedupAux_eq_nil key e seen
      (fun z hz => (he z hz).resolve_right (by simp))
  | cons x rest ih =>
    intro e seen hnd hfresh he
    rw [List.cons_append, dedupAux, if_neg (hfresh x (List.mem_cons_self _ _))]
    have hndr : (rest.map key).Nodup := by
      rw [List.map_cons] at hnd
      exact hnd.of_cons
    have hxr : key x ∉ rest.map key := by
      rw [List.map_cons] at hnd
      exact (List.nodup_cons.mp hnd).1
    have hfresh2 : ∀ y ∈ rest, key y ∉ key x :: seen := by
      intro y hy
      rw [List.mem_cons]
      rintro (hk | hk)
      · exact hxr (hk ▸ List.mem_map_of_mem key hy)
      · exact hfresh y (List.mem_cons_of_mem _ hy) hk
    have he2 : ∀ z ∈ e, key z ∈ key x :: seen ∨ key z ∈ rest.map key := by
      intro z hz
      rcases he z hz with hk | hk
      · exact .inl (List.mem_cons_of_mem _ hk)
      · rw [List.map_cons, List.mem_cons] at hk
        rcases hk with hk | hk
        · exact .inl (hk ▸ List.mem_cons_self _ _)
        · exact .inr hk
    rw [ih e (key x :: seen) hndr hfresh2 he2]

theorem dedupKeyFirst_eq_self {α K : Type} [DecidableEq K] (key : α → K)
    (xs : List α) (hnd : (xs.map key).Nodup) : dedupKeyFirst key xs = xs := by
  have := dedupAux_absorb key xs [] [] hnd (by simp) (by simp)
  rw [List.append_nil] at this
  exact this

theorem dedupKeyFirst_self_append {α K : Type} [DecidableEq K] (key : α → K)
    (xs : List α) (hnd : (xs.map key).Nodup) :
    dedupKeyFirst key (xs ++ xs) = xs :=
  dedupAux_absorb key xs xs [] hnd (by simp)
    (fun z hz => .inr (List.mem_map_of_mem key hz))

theorem dedupAux_nodup_and_fresh {α K : Type} [DecidableEq K] (key : α → K)
    (xs : List α) : ∀ seen, ((dedupAux key seen xs).map key).Nodup ∧
    ∀ y ∈ dedupAux key seen xs, key y ∉ seen := by
  induction xs with
  | nil =>
    intro seen
    refine ⟨by simp [dedupAux], ?_⟩
    intro y hy
    cases hy
  | cons x rest ih =>
    intro seen
    by_cases h : key x ∈ seen
    · rw [dedupAux, if_pos h]
      exact ih seen
    · rw [dedupAux, if_neg h]
      obtain ⟨hnd, hfr⟩ := ih (key x :: seen)
      constructor
      · rw [List.map_cons, List.nodup_cons]
        refine ⟨?_, hnd⟩
        intro hmem
        rcases List.mem_map.mp hmem with ⟨y, hy, hky⟩
        exact hfr y hy (hky ▸ List.mem_cons_self _ _)
      · intro y hy
        rcases List.mem_cons.mp hy with he | hm
        · exact he ▸ h
        · exact fun hk => hfr y hm (List.mem_cons_of_mem _ hk)

theorem dedupAux_filter_key {α K : Type} [DecidableEq K] (key : α → K)
    (xs : List α) (k : K) : ∀ seen,
    (k ∈ seen → (dedupAux key seen xs).filter (fun y => key y = k) = []) ∧
    (k ∉ seen → (dedupAux key seen xs).filter (fun y => key y = k) =
      (xs.filter (fun y => key y = k)).take 1) := by
  induction xs with
  | nil => intro seen; exact ⟨fun _ => rfl, fun _ => rfl⟩
  | cons x rest ih =>
    intro seen
    by_cases hx : key x ∈ seen
    · rw [dedupAux, if_pos hx]
      constructor
      · intro hk
        exact (ih seen).1 hk
      · intro hk
        have hxk : ¬ key x = k := fun he => hk (he ▸ hx)
        rw [List.filter_cons_of_neg (by simpa using hxk)]
        exact (ih seen).2 hk
    · rw [dedupAux, if_neg hx]
      by_cases hxk : key x = k
      · constructor
        · intro hk
          exact absurd (hxk ▸ hk) hx
        · intro _
          rw [List.filter_cons_of_pos (by simpa using hxk),
            List.filter_cons_of_pos (by simpa using hxk)]
          rw [(ih (key x :: seen)).1 (hxk ▸ List.mem_cons_self _ _)]
          simp
      · constructor
        · intro hk
          rw [List.filter_cons_of_neg (by simpa using hxk)]
          exact (ih (key x :: seen)).1 (List.mem_cons_of_mem _ hk)
        · intro hk
          rw [List.filter_cons_of_neg (by simpa using hxk),
            List.filter_cons_of_neg (by simpa using hxk)]
          have hk2 : k ∉ key x :: seen := by
            rw [List.mem_cons]
            rintro (he | he)
            · exact hxk he.symm
            · exact hk he
          exact (ih (key x :: seen)).2 hk2

theorem dedupKeyFirst_filter_key {α K : Type} [DecidableEq K] (key : α → K)
    (xs : List α) (k : K) :
    (dedupKeyFirst key xs).filter (fun y => key y = k) =
      (xs.filter (fun y => key y = k)).take 1 :=
  (dedupAux_filter_key key xs k []).2 (by simp)

theorem preservesTwo_refl (a b : String) (t : Table) : preservesTwo a b t t :=
  fun r hr => ⟨r, hr, rfl, rfl⟩

theorem preservesTwo_trans (a b : String) (u v t : Table)
    (h1 : preservesTwo a b u v) (h2 : preservesTwo a b v t) :
    preservesTwo a b u t := by
  intro r2 hr2
  rcases h1 r2 hr2 with ⟨r1, hr1, e1, e2⟩
  rcases h2 r1 hr1 with ⟨r0, hr0, f1, f2⟩
  exact ⟨r0, hr0, e1.trans f1, e2.trans f2⟩

theorem preservesTwo_setColumn (a b c : String) (f : Row → Cell) (t : Table)
    (ha : a ≠ c) (hb : b ≠ c) : preservesTwo a b (setColumn c f t) t := by
  intro r2 hr2
  rw [rows_setColumn] at hr2
  rcases List.mem_map.mp hr2 with ⟨r1, hr1, he⟩
  refine ⟨r1, hr1, ?_, ?_⟩
  · rw [← he, getCell_rowSetCell_ne _ _ _ _ ha]
  · rw [← he, getCell_rowSetCell_ne _ _ _ _ hb]

theorem preservesTwo_enrichRating (a b : String) (t : Table)
    (ha : a ≠ "rating_category") (hb : b ≠ "rating_category") :
    preservesTwo a b (enrichRating t) t := by
  unfold enrichRating
  by_cases h : "rating" ∈ t.cols
  · rw [if_pos h]
    exact preservesTwo_setColumn a b _ _ t ha hb
  · rw [if_neg h]
    exact preservesTwo_refl a b t

theorem preservesTwo_enrichTitle (a b : String) (t : Table)
    (ha1 : a ≠ "title_length") (ha2 : a ≠ "title_word_count")
    (hb1 : b ≠ "title_length") (hb2 : b ≠ "title_word_count") :
    preservesTwo a b (enrichTitle t) t := by
  unfold enrichTitle
  by_cases h : "title" ∈ t.cols
  · rw [if_pos h]
    exact preservesTwo_trans a b _ _ _
      (preservesTwo_setColumn a b _ _ _ ha2 hb2)
      (preservesTwo_setColumn a b _ _ _ ha1 hb1)
  · rw [if_neg h]
    exact preservesTwo_refl a b t

theorem preservesTwo_enrichDescription (a b : String) (t : Table)
    (ha1 : a ≠ "description_length") (ha2 : a ≠ "description_word_count")
    (ha3 : a ≠ "has_description")
    (hb1 : b ≠ "description_length") (hb2 : b ≠ "description_word_count")
    (hb3 : b ≠ "has_description") :
    preservesTwo a b (enrichDescription t) t := by
  unfold enrichDescription
  by_cases h : "description" ∈ t.cols
  · rw [if_pos h]
    exact preservesTwo_trans a b _ _ _
      (preservesTwo_setColumn a b _ _ _ ha3 hb3)
      (preservesTwo_trans a b _ _ _
        (preservesTwo_setColumn a b _ _ _ ha2 hb2)
        (preservesTwo_setColumn a b _ _ _ ha1 hb1))
  · rw [if_neg h]
    exact preservesTwo_refl a b t

theorem preservesTwo_enrichDiscount (a b : String) (t : Table)
    (ha : a ≠ "discount_percentage") (hb : b ≠ "discount_percentage") :
    preservesTwo a b (enrichDiscount t) t := by
  unfold enrichDiscount
  by_cases h : "price" ∈ t.cols ∧ "regularprice" ∈ t.cols
  · rw [if_pos h]
    exact preservesTwo_setColumn a b _ _ t ha hb
  · rw [if_neg h]
    exact preservesTwo_refl a b t

theorem setColumn_base_property (c : String) (f : Row → Cell) (t : Table)
    (src : String) (hne : src ≠ c) (g : Cell → Cell)
    (hf : ∀ r, f r = g (getCell r src)) :
    ∀ r ∈ (setColumn c f t).rows, getCell r c = g (getCell r src) := by
  intro r hr
  rw [rows_setColumn] at hr
  rcases List.mem_map.mp hr with ⟨r0, hr0, he⟩
  rw [← he, getCell_rowSetCell_self, getCell_rowSetCell_ne _ _ _ _ hne, hf r0]

theorem addCalc_price_cat (t : Table) (hp : "price" ∈ t.cols) :
    ∀ r ∈ (addCalculatedFields t).rows,
      getCell r "price_category" = priceCut (getCell r "price") := by
  have base : ∀ r ∈ (enrichPrice t).rows,
      getCell r "price_category" = priceCut (getCell r "price") := by
    unfold enrichPrice
    rw [if_pos hp]
    exact setColumn_base_property _ _ t "price" (by decide) priceCut (fun _ => rfl)
  have hpres : preservesTwo "price" "price_category"
      (addCalculatedFields t) (enrichPrice t) := by
    unfold addCalculatedFields
    refine preservesTwo_trans _ _ _ _ _
      (preservesTwo_enrichDiscount _ _ _ (by decide) (by decide)) ?_
    refine preservesTwo_trans _ _ _ _ _
      (preservesTwo_enrichDescription _ _ _ (by decide) (by decide) (by decide)
        (by decide) (by decide) (by decide)) ?_
    refine preservesTwo_trans _ _ _ _ _
      (preservesTwo_enrichTitle _ _ _ (by decide) (by decide) (by decide)
        (by decide)) ?_
    exact preservesTwo_enrichRating _ _ _ (by decide) (by decide)
  intro r hr
  rcases hpres r hr with ⟨r1, hr1, e1, e2⟩
  rw [e2, base r1 hr1, e1]

theorem mem_cols_enrichPrice (c : String) (t : Table) (h : c ∈ t.cols) :
    c ∈ (enrichPrice t).cols := by
  unfold enrichPrice
  by_cases hp : "price" ∈ t.cols
  · rw [if_pos hp]
    exact mem_cols_setColumn _ _ _ _ h
  · rw [if_neg hp]
    exact h

theorem addCalc_rating_cat (t : Table) (hp : "rating" ∈ t.cols) :
    ∀ r ∈ (addCalculatedFields t).rows,
      getCell r "rating_category" = ratingCut (getCell r "rating") := by
  have hp1 : "rating" ∈ (enrichPrice t).cols := mem_cols_enrichPrice _ t hp
  have base : ∀ r ∈ (enrichRating (enrichPrice t)).rows,
      getCell r "rating_category" = ratingCut (getCell r "rating") := by
    unfold enrichRating
    rw [if_pos hp1]
    exact setColumn_base_property _ _ _ "rating" (by decide) ratingCut (fun _ => rfl)
  have hpres : preservesTwo "rating" "rating_category"
      (addCalculatedFields t) (enrichRating (enrichPrice t)) := by
    unfold addCalculatedFields
    refine preservesTwo_trans _ _ _ _ _
      (preservesTwo_enrichDiscount _ _ _ (by decide) (by decide)) ?_
    refine preservesTwo_trans _ _ _ _ _
      (preservesTwo_enrichDescription _ _ _ (by decide) (by decide) (by decide)
        (by decide) (by decide) (by decide)) ?_
    exact preservesTwo_enrichTitle _ _ _ (by decide) (by decide) (by decide)
      (by decide)
  intro r hr
  rcases hpres r hr with ⟨r1, hr1, e1, e2⟩
  rw [e2, base r1 hr1, e1]

/-- C1: the claim is the intended contract and the code breaks it.  The
web-source normalizer synthesizes the id as
`hash(f"{title}_{product_url}") % 1000000`
(`src/utils/data_cleaner.py` lines 118–122), and Python's built-in string
hash has been salted per interpreter process by `PYTHONHASHSEED` since
Python 3.3, so the id depends on the process salt as well as on
`(title, product_url)`.  Modelling the two processes' string hashes by two
functions, the very same input record receives two different ids. -/
theorem c1_id_not_stable_across_processes :
    (cleanWebScrapedData (fun _ => 0) "2024-01-01 00:00:00"
        [[("title", Cell.cstr "A"), ("product_url", Cell.cstr "u")]]).map
      (fun t => t.rows.map (fun r => getCell r "id")) = .ok [Cell.cint 0]
    ∧ (cleanWebScrapedData (fun _ => 1) "2024-01-01 00:00:00"
        [[("title", Cell.cstr "A"), ("product_url", Cell.cstr "u")]]).map
      (fun t => t.rows.map (fun r => getCell r "id")) = .ok [Cell.cint 1]
    ∧ Cell.cint 0 ≠ Cell.cint 1 := by
  exact ⟨by decide, by decide, by decide⟩

/-- C3 counterexample: merging two empty normalized tables is not a valid
empty table but a `KeyError` — the concatenation of two empty frames has
no columns, and `drop_duplicates(subset=['id', 'data_source'])` raises on
the absent key columns (`src/utils/data_cleaner.py` lines 236–240). -/
theorem c3_merge_empty_empty_raises :
    mergeDatasets Table.empty Table.empty = .error "KeyError" := by decide

/-- C3 (amended): an empty input is not an error for the per-source
normalizers (each returns the empty table), and enrichment and statistics
are total on the empty table; but `merge(empty, empty)` raises `KeyError`
instead of returning a valid empty table, because the dedup key columns do
not exist in an empty concatenation. -/
theorem c3_empty_input_behavior :
    (∀ now, cleanApiData now [] = .ok Table.empty)
    ∧ (∀ pyHash now, cleanWebScrapedData pyHash now [] = .ok Table.empty)
    ∧ addCalculatedFields Table.empty = Table.empty
    ∧ generateStatistics Table.empty =
        { total_products := 0, total_columns := 0, missing_values := [],
          data_types := [], price_stats := none, rating_stats := none,
          category_distribution := none, data_source_distribution := none,
          stock_stats := none }
    ∧ mergeDatasets Table.empty Table.empty = .error "KeyError" :=
  ⟨fun _ => rfl, fun _ _ => rfl, by decide, by decide, by decide⟩

/-- C8 counterexample: for a table whose `price` column exists but is
entirely missing, `generate_statistics` does NOT omit the `price_stats`
block; the block is present, with every aggregate NaN
(`src/utils/data_cleaner.py` lines 320–328 guard only on column
presence). -/
theorem c8_allmissing_price_block_present :
    (generateStatistics
        { cols := ["price"], rows := [[("price", Cell.nan)]] }).price_stats =
      some { agg := { mean := none, median := none, min := none, max := none },
             std := none }
    ∧ (generateStatistics
        { cols := ["price"], rows := [[("price", Cell.nan)]] }).price_stats ≠
      none := by
  exact ⟨by decide, by decide⟩

/-- C8 (amended): the `price_stats` block is omitted exactly when the
`price` column is absent; when the column exists but every value is
missing, the block is still present, with all-NaN aggregates — and no
division error or exception is raised (the summarizer is a total
function). -/
theorem c8_price_block_iff_column :
    (∀ t : Table, (generateStatistics t).price_stats = none ↔ "price" ∉ t.cols)
    ∧ (∀ t : Table, "price" ∈ t.cols →
        (∀ x ∈ colCells t "price", x.isna = true) →
        (generateStatistics t).price_stats =
          some { agg := { mean := none, median := none, min := none,
                          max := none },
                 std := none }) := by
  constructor
  · intro t
    unfold generateStatistics
    by_cases hp : "price" ∈ t.cols <;> simp [hp]
  · intro t hp hall
    have hnil : colNums t "price" = [] := by
      unfold colNums
      rw [List.filterMap_eq_nil_iff]
      intro x hx
      have hna := hall x hx
      cases x <;> simp_all [Cell.toRat, Cell.isna]
    simp [generateStatistics, aggStatsOf, colMean, colMedian, colMin,
      colMax, colVariance, hnil, hp, sortRats]

/-- C9 counterexample: the claim fixes a "lower-bound-inclusive convention
at boundaries 20, 50 and 100", under which a price of exactly 50 belongs
to the bucket it lower-bounds, "Premium"; but `pd.cut` bins are
right-closed, so the code assigns 50 to "Mid-Range"
(`src/utils/data_cleaner.py` lines 264–270). -/
theorem c9_boundary_convention_counterexample :
    (addCalculatedFields
        { cols := ["price"], rows := [[("price", Cell.cfloat 50)]] }).rows.map
      (fun r => getCell r "price_category") = [Cell.cstr "Mid-Range"]
    ∧ priceCategorySpecLower 50 = some "Premium"
    ∧ Cell.cstr "Mid-Range" ≠ Cell.cstr "Premium" := by
  exact ⟨by decide, by decide, by decide⟩

/-- C9 (amended): boundary prices belong to the lower-priced bucket — the
bins are upper-bound-inclusive, `(0,20] (20,50] (50,100] (100,∞)` — so
20.00 is "Budget" (as the claim says), 50 is "Mid-Range", 100 is
"Premium", and the final bin is open-ended: every price strictly greater
than 100 is "Luxury". -/
theorem c9_bucket_boundaries (t : Table) (hp : "price" ∈ t.cols) :
    ∀ r ∈ (addCalculatedFields t).rows,
      (getCell r "price" = .cfloat 20 → getCell r "price_category" = .cstr "Budget")
      ∧ (getCell r "price" = .cfloat 50 →
          getCell r "price_category" = .cstr "Mid-Range")
      ∧ (getCell r "price" = .cfloat 100 →
          getCell r "price_category" = .cstr "Premium")
      ∧ (∀ q : Rat, 100 < q → getCell r "price" = .cfloat q →
          getCell r "price_category" = .cstr "Luxury") := by
  intro r hr
  have hcat := addCalc_price_cat t hp r hr
  refine ⟨?_, ?_, ?_, ?_⟩
  · intro hv
    rw [hcat, hv]
    decide
  · intro hv
    rw [hcat, hv]
    decide
  · intro hv
    rw [hcat, hv]
    decide
  · intro q hq hv
    rw [hcat, hv]
    unfold priceCut
    simp only [Cell.toRat]
    have h1 : ¬(0 < q ∧ q ≤ 20) := fun h => absurd (lt_trans (by norm_num) hq) (not_lt.mpr h.2)
    have h2 : ¬(20 < q ∧ q ≤ 50) := fun h => absurd (lt_trans (by norm_num) hq) (not_lt.mpr h.2)
    have h3 : ¬(50 < q ∧ q ≤ 100) := fun h => absurd hq (not_lt.mpr h.2)
    rw [if_neg h1, if_neg h2, if_neg h3, if_pos hq]

/-- C9 witness instance: boundary price 20 in a concrete one-row table is
bucketed "Budget". -/
theorem c9_bucket_boundaries_witness :
    getCell [("price", Cell.cfloat 20), ("price_category", Cell.cstr "Budget")]
      "price_category" = Cell.cstr "Budget" :=
  (c9_bucket_boundaries (Table.mk ["price"] [[("price", Cell.cfloat 20)]])
    (by decide)
    [("price", Cell.cfloat 20), ("price_category", Cell.cstr "Budget")]
    (by decide)).1 (by decide)

/-- C10 (confirmed): the missing-value policy fills a missing
price/rating/stock cell with 0, and the enricher's buckets exclude their
lower endpoint 0, so a record with price exactly 0 gets a NaN (null)
`price_category` and a record with rating exactly 0 gets a NaN
`rating_category` — enrichment can produce missing cells in the derived
bucket columns even on a fully policy-filled table. -/
theorem c10_zero_fill_null_buckets :
    (∀ (t : Table) (c : String) (x : Cell), c ∈ specialNumericCols →
      (dtypeOf t c = .int64 ∨ dtypeOf t c = .float64) → 0 < countIsna t c →
      x.isna = true → numericFillFn t c x = .cfloat 0)
    ∧ (∀ t : Table, "price" ∈ t.cols → ∀ r ∈ (addCalculatedFields t).rows,
        (getCell r "price").toRat = some 0 →
        (getCell r "price_category").isna = true)
    ∧ (∀ t : Table, "rating" ∈ t.cols → ∀ r ∈ (addCalculatedFields t).rows,
        (getCell r "rating").toRat = some 0 →
        (getCell r "rating_category").isna = true) := by
  refine ⟨?_, ?_, ?_⟩
  · intro t c x hc hdt hcnt hx
    unfold numericFillFn
    rcases hdt with h | h <;> simp [h, hcnt, hx, hc]
  · intro t hp r hr hz
    rw [addCalc_price_cat t hp r hr]
    unfold priceCut
    rw [hz]
    norm_num
    decide
  · intro t hp r hr hz
    rw [addCalc_rating_cat t hp r hr]
    unfold ratingCut
    rw [hz]
    norm_num
    decide

/-- C10 witness instance: a missing price is filled with 0, and a price of
exactly 0 receives a missing bucket. -/
theorem c10_zero_fill_null_buckets_witness :
    numericFillFn (Table.mk ["price"] [[("price", Cell.nan)]]) "price" Cell.nan
        = Cell.cfloat 0
    ∧ (getCell [("price", Cell.cfloat 0), ("price_category", Cell.nan)]
        "price_category").isna = true :=
  ⟨c10_zero_fill_null_buckets.1 (Table.mk ["price"] [[("price", Cell.nan)]])
      "price" Cell.nan (by decide) (Or.inr (by decide)) (by decide) (by decide),
   c10_zero_fill_null_buckets.2.1 (Table.mk ["price"] [[("price", Cell.cfloat 0)]])
      (by decide) [("price", Cell.cfloat 0), ("price_category", Cell.nan)]
      (by decide) (by decide)⟩

theorem map_alignRow_self (cols : List String) (rs : List Row)
    (h : ∀ r ∈ rs, alignRow cols r = r) : rs.map (alignRow cols) = rs := by
  calc rs.map (alignRow cols) = rs.map id := List.map_congr_left h
  _ = rs := List.map_id rs

/-- C5 (confirmed): for a normalized table `A` — well-formed rows, both
key columns present, no duplicate `(id, data_source)` key — merging with
the empty table returns `A` itself: the same column list and the very same
rows in the same order (`pd.concat` contributes no columns or rows from
the empty frame, and the re-deduplication keeps every row of `A`). -/
theorem c5_merge_empty_right_identity (a : Table)
    (hwf : a.wellFormed) (hid : "id" ∈ a.cols) (hds : "data_source" ∈ a.cols)
    (hnd : a.mergeKeyNodup) :
    mergeDatasets a Table.empty = .ok a := by
  unfold mergeDatasets
  have hconcat : concatTables a Table.empty = a := by
    unfold concatTables
    simp only [Table.empty, List.filter_nil, List.append_nil, List.map_nil]
    rw [map_alignRow_self a.cols a.rows hwf]
  rw [hconcat]
  unfold dropDuplicatesSubset
  rw [if_pos (by simp [hid, hds])]
  rw [dedupKeyFirst_eq_self (subsetKey ["id", "data_source"]) a.rows hnd]

/-- C5 witness instance. -/
theorem c5_merge_empty_right_identity_witness :
    mergeDatasets wTableA Table.empty = .ok wTableA :=
  c5_merge_empty_right_identity wTableA
    (by show ∀ r ∈ wTableA.rows, alignRow wTableA.cols r = r; decide)
    (by decide) (by decide)
    (by show (wTableA.rows.map (subsetKey ["id", "data_source"])).Nodup; decide)

/-- C4 (confirmed, in a strong form): whenever `merge(A, B)` succeeds with
result `M`, re-merging `M` against itself returns `M` itself — in
particular the row set under the `(id, data_source)` composite key is that
of `M`.  The concatenation `M ++ M` deduplicates back to exactly `M`'s
rows because `M` is already duplicate-free on the composite key. -/
theorem c4_merge_idempotent (a b m : Table) (h : mergeDatasets a b = .ok m) :
    mergeDatasets m m = .ok m := by
  unfold mergeDatasets dropDuplicatesSubset at h
  split at h
  case isFalse => cases h
  case isTrue hc =>
    have hm : Table.mk (concatTables a b).cols
        (dedupKeyFirst (subsetKey ["id", "data_source"]) (concatTables a b).rows)
        = m := by injection h
    have hmcols : m.cols = (concatTables a b).cols := by rw [← hm]
    have hmrows : m.rows = dedupKeyFirst (subsetKey ["id", "data_source"])
        (concatTables a b).rows := by rw [← hm]
    have hwf : ∀ r ∈ m.rows, alignRow m.cols r = r := by
      intro r hr
      rw [hmrows] at hr
      have hr2 := (dedupAux_sublist _ _ _).mem hr
      rw [hmcols, show (concatTables a b).cols
        = a.cols ++ b.cols.filter (fun c => c ∉ a.cols) from rfl]
      rcases List.mem_append.mp hr2 with hr3 | hr3 <;>
        rcases List.mem_map.mp hr3 with ⟨r0, _, he⟩ <;>
        rw [← he, alignRow_idem]
    have hnd : (m.rows.map (subsetKey ["id", "data_source"])).Nodup := by
      rw [hmrows]
      exact (dedupAux_nodup_and_fresh _ _ _).1
    have hfil : m.cols.filter (fun c => c ∉ m.cols) = [] := by
      rw [List.filter_eq_nil_iff]
      intro c hcm
      simp [hcm]
    have hconcat : concatTables m m = Table.mk m.cols (m.rows ++ m.rows) := by
      unfold concatTables
      rw [hfil, List.append_nil, map_alignRow_self m.cols m.rows hwf]
    unfold mergeDatasets
    rw [hconcat]
    unfold dropDuplicatesSubset
    rw [if_pos ?hcnd]
    case hcnd =>
      show (["id", "data_source"].all fun k => decide (k ∈ m.cols)) = true
      rw [hmcols]
      exact hc
    rw [dedupKeyFirst_self_append (subsetKey ["id", "data_source"]) m.rows hnd]

/-- C4 witness instance. -/
theorem c4_merge_idempotent_witness :
    mergeDatasets (okOr (mergeDatasets wTableA wTableB))
        (okOr (mergeDatasets wTableA wTableB)) =
      .ok (okOr (mergeDatasets wTableA wTableB)) :=
  c4_merge_idempotent wTableA wTableB (okOr (mergeDatasets wTableA wTableB))
    (by decide)

theorem numericFillFn_not_isna (t : Table) (c : String) (x : Cell)
    (hx : x.isna = false) : numericFillFn t c x = x := by
  unfold numericFillFn
  split_ifs with h1 h2 <;> simp_all

theorem stringFillFn_not_isna (t : Table) (c : String) (x : Cell)
    (hx : x.isna = false) : stringFillFn t c x = x := by
  unfold stringFillFn
  split_ifs with h1 h2 <;> simp_all

theorem boolFillFn_not_isna (t : Table) (c : String) (x : Cell)
    (hx : x.isna = false) : boolFillFn t c x = x := by
  unfold boolFillFn
  split_ifs with h1 h2 <;> simp_all

theorem numericFillFn_object_id (t : Table) (c : String)
    (hdt : dtypeOf t c = .object) (x : Cell) : numericFillFn t c x = x := by
  unfold numericFillFn
  rw [if_neg (by simp [hdt])]

theorem stringFillFn_object_fill (t : Table) (c : String)
    (hdt : dtypeOf t c = .object) (hcnt : 0 < countIsna t c) (x : Cell) :
    (stringFillFn t c x).isna = false := by
  unfold stringFillFn
  rw [if_pos (by simp [hdt, hcnt])]
  by_cases hx : x.isna = true
  · rw [if_pos hx]
    split_ifs <;> rfl
  · rw [if_neg hx]
    simpa using hx

theorem numericFillFn_special_fill (t : Table) (c : String)
    (hdt : dtypeOf t c = .int64 ∨ dtypeOf t c = .float64)
    (hcnt : 0 < countIsna t c) (hc : c ∈ specialNumericCols) (x : Cell) :
    (numericFillFn t c x).isna = false := by
  unfold numericFillFn
  rw [if_pos (by rcases hdt with h | h <;> simp [h, hcnt])]
  by_cases hx : x.isna = true
  · rw [if_pos hx, if_pos hc]
    rfl
  · rw [if_neg hx]
    simpa using hx

theorem dtypeOf_congr (t1 t2 : Table) (c : String)
    (h : colCells t1 c = colCells t2 c) : dtypeOf t1 c = dtypeOf t2 c := by
  unfold dtypeOf
  rw [h]

theorem countIsna_congr (t1 t2 : Table) (c : String)
    (h : colCells t1 c = colCells t2 c) : countIsna t1 c = countIsna t2 c := by
  unfold countIsna
  rw [h]

theorem dtypeOf_bool_all (t : Table) (c : String) (h : dtypeOf t c = .bool) :
    ∀ x ∈ colCells t c, x.isCBool = true := by
  unfold dtypeOf at h
  split_ifs at h with h1 h2 h3 h4
  intro x hx
  exact List.all_eq_true.mp h4 x hx

theorem dtypeOf_ne_bool_of_mem (t : Table) (c : String) (x : Cell)
    (hx : x ∈ colCells t c) (hnb : x.isCBool = false) :
    dtypeOf t c ≠ .bool := by
  intro h
  have := dtypeOf_bool_all t c h x hx
  rw [hnb] at this
  cases this

theorem countIsna_zero_no_missing (t : Table) (c : String)
    (h : ¬ 0 < countIsna t c) : ∀ x ∈ colCells t c, x.isna = false := by
  intro x hx
  have h0 : countIsna t c = 0 := Nat.eq_zero_of_not_pos h
  unfold countIsna at h0
  have := List.countP_eq_zero.mp h0 x hx
  simpa using this

theorem countIsna_pos_of_mem (t : Table) (c : String) (x : Cell)
    (hx : x ∈ colCells t c) (hna : x.isna = true) : 0 < countIsna t c := by
  unfold countIsna
  rw [List.countP_pos_iff]
  exact ⟨x, hx, hna⟩

theorem colCells_fillNumericPass (t : Table) (c : String) (hc : c ∈ t.cols) :
    colCells (fillNumericPass t) c = (colCells t c).map (numericFillFn t c) := by
  unfold fillNumericPass
  rw [colCells_applyColFn _ _ _ hc]

theorem colCells_fillStringPass (t : Table) (c : String) (hc : c ∈ t.cols) :
    colCells (fillStringPass t) c = (colCells t c).map (stringFillFn t c) := by
  unfold fillStringPass
  rw [colCells_applyColFn _ _ _ hc]

theorem colCells_fillBoolPass (t : Table) (c : String) (hc : c ∈ t.cols) :
    colCells (fillBoolPass t) c = (colCells t c).map (boolFillFn t c) := by
  unfold fillBoolPass
  rw [colCells_applyColFn _ _ _ hc]

theorem colCells_handleMissing (t : Table) (c : String) (hc : c ∈ t.cols) :
    colCells (handleMissingValues t) c =
      (((colCells t c).map (numericFillFn t c)).map
          (stringFillFn (fillNumericPass t) c)).map
        (boolFillFn (fillStringPass (fillNumericPass t)) c) := by
  unfold handleMissingValues
  rw [colCells_fillBoolPass (fillStringPass (fillNumericPass t)) c hc,
    colCells_fillStringPass (fillNumericPass t) c hc,
    colCells_fillNumericPass t c hc]

/-- C2 counterexample: a product whose `price` arrives as the string
`"abc"` has no missing cell on input, yet the cleaned output's `price`
cell is NaN — `_handle_missing_values` runs before `_validate_data_types`,
whose `pd.to_numeric(..., errors='coerce')` turns the unparseable string
into NaN (`src/utils/data_cleaner.py` lines 86–90, 194–196), so type
coercion reintroduces a null after the fill pass. -/
theorem c2_coercion_reintroduces_null :
    (cleanApiData "2024-01-01 00:00:00"
        [[("id", Cell.cint 1), ("price", Cell.cstr "abc")]]).map
      (fun t => t.rows.map (fun r => getCell r "price")) = .ok [Cell.nan]
    ∧ (cleanApiData "2024-01-01 00:00:00"
        [[("id", Cell.cint 1), ("price", Cell.cstr "abc")]]).map
      (fun t => dtypeOf t "price") = .ok DType.float64
    ∧ Cell.nan.isna = true :=
  ⟨by decide, by decide, by decide⟩

/-- C2 (amended): after the missing-value pass `_handle_missing_values`
no missing cell remains in any text (object-dtype) column, in the special
numeric columns price/rating/stock, or in any bool-dtype column; the later
type-coercion step, however, can reintroduce nulls (a price/rating/stock/id
string that does not parse as a number becomes NaN), and a non-special
numeric column that is entirely missing keeps its nulls (its fill value is
the NaN median). -/
theorem c2_missing_value_fill_scope :
    (∀ (t : Table) (c : String), c ∈ t.cols → dtypeOf t c = .object →
      ∀ x ∈ colCells (handleMissingValues t) c, x.isna = false)
    ∧ (∀ (t : Table) (c : String), c ∈ t.cols → c ∈ specialNumericCols →
      dtypeOf t c = .int64 ∨ dtypeOf t c = .float64 →
      ∀ x ∈ colCells (handleMissingValues t) c, x.isna = false)
    ∧ (∀ (t : Table) (c : String), c ∈ t.cols → dtypeOf t c = .bool →
      ∀ x ∈ colCells (handleMissingValues t) c, x.isna = false) := by
  refine ⟨?_, ?_, ?_⟩
  · intro t c hc hdt x hx
    rw [colCells_handleMissing t c hc] at hx
    rcases List.mem_map.mp hx with ⟨y2, hy2, he3⟩
    rcases List.mem_map.mp hy2 with ⟨y1, hy1, he2⟩
    rcases List.mem_map.mp hy1 with ⟨y0, hy0, he1⟩
    have hcc1 : colCells (fillNumericPass t) c = colCells t c := by
      rw [colCells_fillNumericPass t c hc]
      calc (colCells t c).map (numericFillFn t c) = (colCells t c).map id :=
        List.map_congr_left (fun z _ => numericFillFn_object_id t c hdt z)
      _ = colCells t c := List.map_id _
    have hdt1 : dtypeOf (fillNumericPass t) c = .object := by
      rw [dtypeOf_congr _ t c hcc1, hdt]
    have hy2na : y2.isna = false := by
      by_cases hcnt : 0 < countIsna (fillNumericPass t) c
      · rw [← he2]
        exact stringFillFn_object_fill _ c hdt1 hcnt y1
      · have hy1mem : y1 ∈ colCells (fillNumericPass t) c := by
          rw [colCells_fillNumericPass t c hc]
          exact List.mem_map.mpr ⟨y0, hy0, he1⟩
        have hy1na := countIsna_zero_no_missing _ c hcnt y1 hy1mem
        rw [← he2, stringFillFn_not_isna _ c y1 hy1na]
        exact hy1na
    rw [← he3, boolFillFn_not_isna _ c y2 hy2na]
    exact hy2na
  · intro t c hc hcs hdt x hx
    rw [colCells_handleMissing t c hc] at hx
    rcases List.mem_map.mp hx with ⟨y2, hy2, he3⟩
    rcases List.mem_map.mp hy2 with ⟨y1, hy1, he2⟩
    rcases List.mem_map.mp hy1 with ⟨y0, hy0, he1⟩
    have hy1na : y1.isna = false := by
      by_cases hy0na : y0.isna = true
      · have hcnt : 0 < countIsna t c := countIsna_pos_of_mem t c y0 hy0 hy0na
        rw [← he1]
        exact numericFillFn_special_fill t c hdt hcnt hcs y0
      · have h0 : y0.isna = false := by simpa using hy0na
        rw [← he1, numericFillFn_not_isna t c y0 h0]
        exact h0
    have hy2na : y2.isna = false := by
      rw [← he2, stringFillFn_not_isna _ c y1 hy1na]
      exact hy1na
    rw [← he3, boolFillFn_not_isna _ c y2 hy2na]
    exact hy2na
  · intro t c hc hdt x hx
    rw [colCells_handleMissing t c hc] at hx
    rcases List.mem_map.mp hx with ⟨y2, hy2, he3⟩
    rcases List.mem_map.mp hy2 with ⟨y1, hy1, he2⟩
    rcases List.mem_map.mp hy1 with ⟨y0, hy0, he1⟩
    have hy0b : y0.isCBool = true := dtypeOf_bool_all t c hdt y0 hy0
    have hy0na : y0.isna = false := by
      cases y0 <;> simp_all [Cell.isCBool, Cell.isna]
    have hy1na : y1.isna = false := by
      rw [← he1, numericFillFn_not_isna t c y0 hy0na]
      exact hy0na
    have hy2na : y2.isna = false := by
      rw [← he2, stringFillFn_not_isna _ c y1 hy1na]
      exact hy1na
    rw [← he3, boolFillFn_not_isna _ c y2 hy2na]
    exact hy2na

/-- C2 witness instance: a `None` in an object column is filled to an
empty string, a non-missing cell. -/
theorem c2_missing_value_fill_scope_witness :
    dtypeOf (Table.mk ["notes"] [[("notes", Cell.null)]]) "notes" = DType.object
    ∧ (Cell.cstr "").isna = false :=
  ⟨by decide,
   c2_missing_value_fill_scope.1 (Table.mk ["notes"] [[("notes", Cell.null)]])
     "notes" (by decide) (by decide) (Cell.cstr "") (by decide)⟩

/-- C7 counterexample: when the `in_stock` column has float dtype (one
product reports `1.0`, another lacks the field so it holds NaN), the
missing value is median-filled to `1.0` by `_handle_missing_values` and
then cast to `True` by `astype(bool)` — the record with the missing
boolean ends up `True`, not `false`. -/
theorem c7_numeric_in_stock_missing_becomes_true :
    (cleanApiData "2024-01-01 00:00:00"
        [[("id", Cell.cint 1), ("in_stock", Cell.cfloat 1)],
         [("id", Cell.cint 2)]]).map
      (fun t => t.rows.map (fun r => getCell r "in_stock"))
      = .ok [Cell.cbool true, Cell.cbool true]
    ∧ dtypeOf (toDataFrame [[("id", Cell.cint 1), ("in_stock", Cell.cfloat 1)],
         [("id", Cell.cint 2)]]) "in_stock" = DType.float64
    ∧ Cell.cbool true ≠ Cell.cbool false :=
  ⟨by decide, by decide, by decide⟩

/-- C7 (amended): a missing value in a boolean-like column ends up `false`
when the column is stored with object dtype (the common case: the missing
cell is filled with `""` and `astype(bool)` sends `""` to `False`); a
bool-dtype column cannot hold a missing value at all; but when the column
is numeric (float) dtype, the missing value is median-filled before the
bool cast and can therefore become `True`. -/
theorem c7_object_bool_missing_to_false (t : Table) (c : String)
    (hc : c ∈ t.cols) (hcand : c ∈ boolCandidates)
    (hdt : dtypeOf t c = .object) :
    ∀ i x, (colCells t c).get? i = some x → x.isna = true →
      (colCells (validateDataTypes (handleMissingValues t)) c).get? i =
        some (Cell.cbool false) := by
  intro i x hget hna
  have hxmem : x ∈ colCells t c := List.get?_mem hget
  have hcases : c = "in_stock" ∨ c = "onsale" ∨ c = "returnable" := by
    simpa [boolCandidates] using hcand
  have hcv : colCells (validateDataTypes (handleMissingValues t)) c
      = (colCells (handleMissingValues t) c).map (validateFn c) := by
    unfold validateDataTypes
    exact colCells_applyColFn _ _ _ hc
  rw [hcv, colCells_handleMissing t c hc, List.get?_map, List.get?_map,
    List.get?_map, List.get?_map, hget]
  have hcc1 : colCells (fillNumericPass t) c = colCells t c := by
    rw [colCells_fillNumericPass t c hc]
    calc (colCells t c).map (numericFillFn t c) = (colCells t c).map id :=
      List.map_congr_left (fun z _ => numericFillFn_object_id t c hdt z)
    _ = colCells t c := List.map_id _
  have hdt1 : dtypeOf (fillNumericPass t) c = .object := by
    rw [dtypeOf_congr _ t c hcc1, hdt]
  have hcnt1 : 0 < countIsna (fillNumericPass t) c := by
    rw [countIsna_congr _ t c hcc1]
    exact countIsna_pos_of_mem t c x hxmem hna
  have e1 : numericFillFn t c x = x := numericFillFn_object_id t c hdt x
  have hcu : c ∉ unknownTextCols := by
    rcases hcases with h | h | h <;> subst h <;> decide
  have e2 : stringFillFn (fillNumericPass t) c x = .cstr "" := by
    unfold stringFillFn
    rw [if_pos (by simp [hdt1, hcnt1]), if_pos hna, if_neg hcu]
  have hmem2 : Cell.cstr "" ∈ colCells (fillStringPass (fillNumericPass t)) c := by
    rw [colCells_fillStringPass (fillNumericPass t) c hc]
    refine List.mem_map.mpr ⟨x, ?_, e2⟩
    rw [hcc1]
    exact hxmem
  have hnb : dtypeOf (fillStringPass (fillNumericPass t)) c ≠ .bool :=
    dtypeOf_ne_bool_of_mem _ c _ hmem2 rfl
  have e3 : boolFillFn (fillStringPass (fillNumericPass t)) c (Cell.cstr "")
      = Cell.cstr "" := by
    unfold boolFillFn
    rw [if_neg hnb]
  have e4 : validateFn c (Cell.cstr "") = Cell.cbool false := by
    rcases hcases with h | h | h <;> subst h <;> decide
  simp only [Option.map_some']
  rw [e1, e2, e3, e4]

/-- C7 witness instance: a `None` in an object-dtype `in_stock` column
ends as `false` after cleaning. -/
theorem c7_object_bool_missing_to_false_witness :
    dtypeOf (Table.mk ["in_stock"] [[("in_stock", Cell.null)]]) "in_stock"
        = DType.object
    ∧ (colCells (validateDataTypes (handleMissingValues
        (Table.mk ["in_stock"] [[("in_stock", Cell.null)]]))) "in_stock").get? 0
        = some (Cell.cbool false) :=
  ⟨by decide,
   c7_object_bool_missing_to_false
     (Table.mk ["in_stock"] [[("in_stock", Cell.null)]]) "in_stock"
     (by decide) (by decide) (by decide) 0 Cell.null (by decide) (by decide)⟩

theorem numericFillFn_cnt_zero (t : Table) (c : String) (x : Cell)
    (h : ¬ 0 < countIsna t c) : numericFillFn t c x = x := by
  unfold numericFillFn
  rw [if_neg (by simp [h])]

theorem webPre_id_mem (pyHash : String → Int) (now : String)
    (records : List Row) : "id" ∈ (webPreDedup pyHash now records).cols := by
  unfold webPreDedup setColumnConst
  exact mem_cols_setColumn _ _ _ _
    (mem_cols_setColumn _ _ _ _ (self_mem_cols_setColumn _ _ _))

theorem webPre_id_cint (pyHash : String → Int) (now : String)
    (records : List Row) :
    ∀ r ∈ (webPreDedup pyHash now records).rows,
      ∃ n, getCell r "id" = Cell.cint n := by
  unfold webPreDedup setColumnConst
  intro r hr
  rw [rows_setColumn] at hr
  rcases List.mem_map.mp hr with ⟨r2, hr2, he2⟩
  rw [rows_setColumn] at hr2
  rcases List.mem_map.mp hr2 with ⟨r1, hr1, he1⟩
  rw [rows_setColumn] at hr1
  rcases List.mem_map.mp hr1 with ⟨r0, _, he0⟩
  rw [← he2, getCell_rowSetCell_ne _ _ _ _ (by decide),
    ← he1, getCell_rowSetCell_ne _ _ _ _ (by decide),
    ← he0, getCell_rowSetCell_self]
  exact ⟨_, rfl⟩

/-- The id column survives the fill passes and the `Int64` coercion
unchanged when every id cell is an integer. -/
theorem idCol_preserved (d : Table) (hid : "id" ∈ d.cols)
    (hall : ∀ x ∈ colCells d "id", ∃ n, x = Cell.cint n) :
    colCells (validateDataTypes (handleMissingValues d)) "id" =
      colCells d "id" := by
  have hcnt0 : ¬ 0 < countIsna d "id" := by
    intro hpos
    unfold countIsna at hpos
    rcases List.countP_pos_iff.mp hpos with ⟨x, hx, hna⟩
    rcases hall x hx with ⟨n, rfl⟩
    cases hna
  have hcv : colCells (validateDataTypes (handleMissingValues d)) "id"
      = (colCells (handleMissingValues d) "id").map (validateFn "id") := by
    unfold validateDataTypes
    exact colCells_applyColFn _ _ _ hid
  rw [hcv, colCells_handleMissing d "id" hid]
  rw [List.map_map, List.map_map, List.map_map]
  have hpt : ∀ x ∈ colCells d "id",
      (validateFn "id" ∘ boolFillFn (fillStringPass (fillNumericPass d)) "id"
        ∘ stringFillFn (fillNumericPass d) "id" ∘ numericFillFn d "id") x = x := by
    intro x hx
    rcases hall x hx with ⟨n, rfl⟩
    simp only [Function.comp_apply]
    rw [numericFillFn_cnt_zero d "id" _ hcnt0,
      stringFillFn_not_isna _ _ _ (by rfl),
      boolFillFn_not_isna _ _ _ (by rfl)]
    rfl
  calc (colCells d "id").map _ = (colCells d "id").map id :=
    List.map_congr_left hpt
  _ = colCells d "id" := List.map_id _

/-- C6 (confirmed): deduplication in the normalizers keeps exactly the
first occurrence of each id key and preserves input order.  For the web
normalizer: the output table is the post-processing (fills and coercions)
of the first-occurrence dedup of the pre-dedup rows; that dedup is a
sublist of the pre-dedup rows (so surviving rows keep their relative
order); for every key value the dedup retains exactly the first row
carrying it; and the output's id column equals the deduplicated id
sequence, which is duplicate-free.  The same first-occurrence/dedup shape
holds for the API normalizer (last conjunct). -/
theorem c6_dedup_keeps_first (pyHash : String → Int) (now : String)
    (records : List Row) (t : Table) (hne : records ≠ [])
    (h : cleanWebScrapedData pyHash now records = .ok t) :
    t = validateDataTypes (handleMissingValues
        (Table.mk (webPreDedup pyHash now records).cols
          (dedupKeyFirst (subsetKey ["id"]) (webPreDedup pyHash now records).rows)))
    ∧ (dedupKeyFirst (subsetKey ["id"]) (webPreDedup pyHash now records).rows).Sublist
        (webPreDedup pyHash now records).rows
    ∧ (∀ k : List Cell,
        (dedupKeyFirst (subsetKey ["id"]) (webPreDedup pyHash now records).rows).filter
          (fun r => subsetKey ["id"] r = k)
        = ((webPreDedup pyHash now records).rows.filter
            (fun r => subsetKey ["id"] r = k)).take 1)
    ∧ t.rows.map (fun r => getCell r "id")
        = (dedupKeyFirst (subsetKey ["id"]) (webPreDedup pyHash now records).rows).map
            (fun r => getCell r "id")
    ∧ (t.rows.map (fun r => getCell r "id")).Nodup
    ∧ (∀ (now2 : String) (recs2 : List Row) (t2 : Table),
        cleanApiData now2 recs2 = .ok t2 → recs2 ≠ [] →
        t2 = validateDataTypes (handleMissingValues
          (Table.mk (apiPreDedup now2 recs2).cols
            (dedupKeyFirst (subsetKey ["id"]) (apiPreDedup now2 recs2).rows)))) := by
  have hid := webPre_id_mem pyHash now records
  have hdrop : dropDuplicatesSubset ["id"] (webPreDedup pyHash now records)
      = .ok (Table.mk (webPreDedup pyHash now records).cols
          (dedupKeyFirst (subsetKey ["id"]) (webPreDedup pyHash now records).rows)) := by
    unfold dropDuplicatesSubset
    rw [if_pos (by simp [hid])]
  have ht : t = validateDataTypes (handleMissingValues
      (Table.mk (webPreDedup pyHash now records).cols
        (dedupKeyFirst (subsetKey ["id"]) (webPreDedup pyHash now records).rows))) := by
    unfold cleanWebScrapedData at h
    rw [if_neg (by simp [hne]), hdrop] at h
    exact (Except.ok.inj h).symm
  have hids : t.rows.map (fun r => getCell r "id")
      = (dedupKeyFirst (subsetKey ["id"]) (webPreDedup pyHash now records).rows).map
          (fun r => getCell r "id") := by
    rw [ht]
    have hall : ∀ x ∈ colCells (Table.mk (webPreDedup pyHash now records).cols
        (dedupKeyFirst (subsetKey ["id"]) (webPreDedup pyHash now records).rows)) "id",
        ∃ n, x = Cell.cint n := by
      intro x hx
      rcases List.mem_map.mp hx with ⟨r, hr, he⟩
      have hrpre := (dedupAux_sublist _ _ _).mem hr
      rcases webPre_id_cint pyHash now records r hrpre with ⟨n, hn⟩
      exact ⟨n, by rw [← he, hn]⟩
    exact idCol_preserved _ hid hall
  refine ⟨ht, dedupAux_sublist _ _ _, ?_, hids, ?_, ?_⟩
  · intro k
    exact dedupKeyFirst_filter_key (subsetKey ["id"]) _ k
  · rw [hids]
    have hnd : ((dedupKeyFirst (subsetKey ["id"])
        (webPreDedup pyHash now records).rows).map (subsetKey ["id"])).Nodup :=
      (dedupAux_nodup_and_fresh (subsetKey ["id"])
        (webPreDedup pyHash now records).rows []).1
    have hrw : (dedupKeyFirst (subsetKey ["id"])
          (webPreDedup pyHash now records).rows).map (subsetKey ["id"])
        = ((dedupKeyFirst (subsetKey ["id"])
          (webPreDedup pyHash now records).rows).map (fun r => getCell r "id")).map
            (fun v => [v]) := by
      rw [List.map_map]
      rfl
    rw [hrw] at hnd
    exact hnd.of_map
  · intro now2 recs2 t2 h2 hne2
    unfold cleanApiData at h2
    rw [if_neg (by simp [hne2])] at h2
    by_cases hnest : ("dimensions" ∈ (toDataFrame recs2).cols
        || "reviews" ∈ (toDataFrame recs2).cols
        || "images" ∈ (toDataFrame recs2).cols) = true
    · rw [if_pos hnest] at h2
      cases h2
    · rw [if_neg hnest] at h2
      cases hdrop2 : dropDuplicatesSubset ["id"] (apiPreDedup now2 recs2) with
      | error e =>
        rw [hdrop2] at h2
        cases h2
      | ok df =>
        rw [hdrop2] at h2
        have hdf : df = Table.mk (apiPreDedup now2 recs2).cols
            (dedupKeyFirst (subsetKey ["id"]) (apiPreDedup now2 recs2).rows) := by
          unfold dropDuplicatesSubset at hdrop2
          split at hdrop2
          · exact (Except.ok.inj hdrop2).symm
          · cases hdrop2
        rw [← hdf]
        exact (Except.ok.inj h2).symm

/-- C6 witness instance: three scraped records where the first two share
`(title, product_url)` produce duplicate-free ids after normalization. -/
theorem c6_dedup_keeps_first_witness :
    wDupRecs ≠ []
    ∧ ((okOr (cleanWebScrapedData wHashLen "2024-01-01 00:00:00" wDupRecs)).rows.map
        (fun r => getCell r "id")).Nodup :=
  ⟨by decide,
   (c6_dedup_keeps_first wHashLen "2024-01-01 00:00:00" wDupRecs
      (okOr (cleanWebScrapedData wHashLen "2024-01-01 00:00:00" wDupRecs))
      (by decide) (by decide)).2.2.2.2.1⟩

/-- C8 witness instance. -/
theorem c8_price_block_iff_column_witness :
    ("price" ∈ (Table.mk ["price"] ([] : List Row)).cols)
    ∧ (generateStatistics (Table.mk ["price"] ([] : List Row))).price_stats =
        some { agg := { mean := none, median := none, min := none, max := none },
               std := none } :=
  ⟨by decide,
   c8_price_block_iff_column.2 (Table.mk ["price"] ([] : List Row))
     (by decide) (by decide)⟩
